import Mathlib

/-!
Shallow embedding of the decision-boundary renderer
src/neural-networks/boundary_simple.py.

Modelling choices:
- floating-point coordinates and scores are modelled as exact rationals;
- a raised exception is modelled as Except.error, and the fallible
  classification callback has type Pt → Except ε ℚ;
- numpy reductions min/max over an empty axis raise, modelled by
  listMin/listMax returning none on the empty list;
- np.arange a b step with positive step produces
  a, a + step, ... with ceil ((b - a) / step) entries (stop exclusive);
- np.meshgrid with default xy indexing returns arrays of shape
  (ys.length, xs.length), ravel is row-major concatenation;
- the calls into the classifier and into the plotting backend
  (figure creation, contourf, scatter) are recorded in an effect trace,
  in program order, so that eagerness and propagation can be stated.
-/

namespace BoundarySimple

/-- A 2D point, modelling the two-element vector np.array [x, y]. -/
abbrev Pt : Type := ℚ × ℚ

/-- The fixed padding fraction, source line 8 (padding=0.15). -/
def padding : ℚ := 15 / 100

/-- The fixed grid resolution, source line 9 (res=0.01). -/
def res : ℚ := 1 / 100

/-- Minimum of a numeric sequence; none on the empty sequence, where
numpy's reduction raises. -/
def listMin : List ℚ → Option ℚ
  | [] => none
  | x :: l => some (l.foldl min x)

/-- Maximum of a numeric sequence; none on the empty sequence. -/
def listMax : List ℚ → Option ℚ
  | [] => none
  | x :: l => some (l.foldl max x)

/-- Source lines 12-13: per-axis raw minima and maxima of the dataset,
(x_min, x_max, y_min, y_max). -/
def rawBounds (X : List Pt) : Option (ℚ × ℚ × ℚ × ℚ) :=
  match listMin (X.map Prod.fst), listMax (X.map Prod.fst),
        listMin (X.map Prod.snd), listMax (X.map Prod.snd) with
  | some xmin, some xmax, some ymin, some ymax => some (xmin, xmax, ymin, ymax)
  | _, _, _, _ => none

/-- Source lines 16-23: the ranges and the padded bounds
x_min - x_range*padding, x_max + x_range*padding, and likewise for y. -/
def paddedBounds (X : List Pt) : Option (ℚ × ℚ × ℚ × ℚ) :=
  match rawBounds X with
  | none => none
  | some (xmin, xmax, ymin, ymax) =>
    let xr := xmax - xmin
    let yr := ymax - ymin
    some (xmin - xr * padding, xmax + xr * padding,
          ymin - yr * padding, ymax + yr * padding)

/-- np.arange start stop step for a positive step: the values
start + k*step for k < ceil ((stop - start) / step), stop excluded. -/
def arange (start stop step : ℚ) : List ℚ :=
  (List.range (Int.toNat (Int.ceil ((stop - start) / step)))).map
    (fun (k : ℕ) => start + (k : ℚ) * step)

/-- np.meshgrid xs ys (default xy indexing): a pair of matrices of shape
(ys.length, xs.length); the first repeats xs in every row, the second has
constant rows ys i. -/
def meshgrid (xs ys : List ℚ) : List (List ℚ) × List (List ℚ) :=
  (ys.map (fun _ => xs), ys.map (fun y => xs.map (fun _ => y)))

/-- Row-major flattening (C-order ravel). -/
def ravel {α : Type} (m : List (List α)) : List α := m.flatten

/-- Source line 34: zip xx.ravel yy.ravel, the grid coordinates in
row-major order. -/
def gridPoints (xs ys : List ℚ) : List Pt :=
  List.zip (ravel (meshgrid xs ys).1) (ravel (meshgrid xs ys).2)

/-- Observable effects of a call, in program order: classifier
invocations, then figure creation, the filled contour and the scatter. -/
inductive Effect : Type where
  | classifyCall (p : Pt)
  | figureCreate (size : ℚ × ℚ)
  | contourDraw
  | scatterDraw
  deriving DecidableEq

/-- Ways plot_decision_boundary can fail: the numpy reduction on an
empty dataset, or an exception raised by the classification callback. -/
inductive RenderError (ε : Type) : Type where
  | emptyInput
  | classifyError (e : ε)
  deriving DecidableEq

/-- The fixed colour palette plt.cm.Spectral. -/
inductive Colormap : Type where
  | spectral
  deriving DecidableEq

/-- The data handed to the plotting backend by one successful call. -/
structure RenderOutput : Type where
  xx : List (List ℚ)
  yy : List (List ℚ)
  Z : List (List ℕ)
  figsize : ℚ × ℚ
  contour : List (List ℚ) × List (List ℚ) × List (List ℕ) × Colormap
  scatter_x : List ℚ
  scatter_y : List ℚ
  scatter_s : ℚ
  scatter_c : List ℚ
  scatter_cmap : Colormap
  deriving DecidableEq

/-- Source lines 33-35: the classification loop. Walks the grid points in
order, calls f on each, thresholds the score strictly against 0.5, and
stops at the first raised exception. Returns the trace of classifier
calls together with the flat label list (or the exception). -/
def computeZ {ε : Type} (f : Pt → Except ε ℚ) :
    List Pt → List Effect × Except ε (List ℕ)
  | [] => ([], Except.ok [])
  | p :: ps =>
    match f p with
    | Except.error e => ([Effect.classifyCall p], Except.error e)
    | Except.ok s =>
      match computeZ f ps with
      | (tr, Except.error e) => (Effect.classifyCall p :: tr, Except.error e)
      | (tr, Except.ok zs) =>
        (Effect.classifyCall p :: tr,
         Except.ok ((if 1 / 2 < s then 1 else 0) :: zs))

/-- Source line 38: reshape a flat list into r rows of c entries
(row-major, matching numpy C-order reshape to shape (r, c)). -/
def reshape {α : Type} : ℕ → ℕ → List α → List (List α)
  | 0, _, _ => []
  | r + 1, c, l => l.take c :: reshape r c (l.drop c)

/-- The whole of plot_decision_boundary (source lines 7-45): bounds and
padding, the meshgrid, the classification loop, the reshape, and the
drawing calls, together with the trace of observable effects. -/
def plot_decision_boundary {ε : Type} (f : Pt → Except ε ℚ) (X : List Pt)
    (Y : List ℚ) : List Effect × Except (RenderError ε) RenderOutput :=
  match paddedBounds X with
  | none => ([], Except.error RenderError.emptyInput)
  | some (x_min, x_max, y_min, y_max) =>
    let xs := arange x_min x_max res
    let ys := arange y_min y_max res
    let xx := (meshgrid xs ys).1
    let yy := (meshgrid xs ys).2
    match computeZ f (gridPoints xs ys) with
    | (tr, Except.error e) => (tr, Except.error (RenderError.classifyError e))
    | (tr, Except.ok zflat) =>
      let Z := reshape ys.length xs.length zflat
      (tr ++ [Effect.figureCreate (8, 6), Effect.contourDraw,
              Effect.scatterDraw],
       Except.ok
         ⟨xx, yy, Z, (8, 6), (xx, yy, Z, Colormap.spectral),
          X.map Prod.fst, X.map Prod.snd, 35, Y, Colormap.spectral⟩)

/-! ### Minimum and maximum of a sequence -/

lemma foldl_min_le_init (l : List ℚ) (a : ℚ) : l.foldl min a ≤ a := by
  induction l generalizing a with
  | nil => simp
  | cons x l ih =>
    calc (x :: l).foldl min a = l.foldl min (min a x) := rfl
    _ ≤ min a x := ih _
    _ ≤ a := min_le_left _ _

lemma foldl_min_le (l : List ℚ) (a y : ℚ) (hy : y ∈ l) : l.foldl min a ≤ y := by
  induction l generalizing a with
  | nil => cases hy
  | cons x l ih =>
    rcases List.mem_cons.mp hy with h | h
    · subst h
      show l.foldl min (min a y) ≤ y
      exact le_trans (foldl_min_le_init l (min a y)) (min_le_right a y)
    · exact ih _ h

lemma foldl_min_mem (l : List ℚ) (a : ℚ) :
    l.foldl min a = a ∨ l.foldl min a ∈ l := by
  induction l generalizing a with
  | nil => left; rfl
  | cons x l ih =>
    show l.foldl min (min a x) = a ∨ l.foldl min (min a x) ∈ x :: l
    rcases ih (min a x) with h | h
    · rcases min_cases a x with ⟨hm, _⟩ | ⟨hm, _⟩
      · left; rw [h, hm]
      · right; rw [h, hm]; exact List.mem_cons_self _ _
    · right; exact List.mem_cons_of_mem _ h

lemma init_le_foldl_max (l : List ℚ) (a : ℚ) : a ≤ l.foldl max a := by
  induction l generalizing a with
  | nil => simp
  | cons x l ih =>
    calc a ≤ max a x := le_max_left _ _
    _ ≤ l.foldl max (max a x) := ih _
    _ = (x :: l).foldl max a := rfl

lemma le_foldl_max (l : List ℚ) (a y : ℚ) (hy : y ∈ l) : y ≤ l.foldl max a := by
  induction l generalizing a with
  | nil => cases hy
  | cons x l ih =>
    rcases List.mem_cons.mp hy with h | h
    · subst h
      show y ≤ l.foldl max (max a y)
      exact le_trans (le_max_right a y) (init_le_foldl_max l (max a y))
    · exact ih _ h

lemma foldl_max_mem (l : List ℚ) (a : ℚ) :
    l.foldl max a = a ∨ l.foldl max a ∈ l := by
  induction l generalizing a with
  | nil => left; rfl
  | cons x l ih =>
    show l.foldl max (max a x) = a ∨ l.foldl max (max a x) ∈ x :: l
    rcases ih (max a x) with h | h
    · rcases max_cases a x with ⟨hm, _⟩ | ⟨hm, _⟩
      · left; rw [h, hm]
      · right; rw [h, hm]; exact List.mem_cons_self _ _
    · right; exact List.mem_cons_of_mem _ h

lemma listMin_spec (x : ℚ) (l : List ℚ) :
    ∃ m, listMin (x :: l) = some m ∧ m ∈ x :: l ∧ ∀ y ∈ x :: l, m ≤ y := by
  refine ⟨l.foldl min x, rfl, ?_, ?_⟩
  · rcases foldl_min_mem l x with h | h
    · rw [h]; exact List.mem_cons_self _ _
    · exact List.mem_cons_of_mem _ h
  · intro y hy
    rcases List.mem_cons.mp hy with h | h
    · subst h; exact foldl_min_le_init _ _
    · exact foldl_min_le _ _ _ h

lemma listMax_spec (x : ℚ) (l : List ℚ) :
    ∃ m, listMax (x :: l) = some m ∧ m ∈ x :: l ∧ ∀ y ∈ x :: l, y ≤ m := by
  refine ⟨l.foldl max x, rfl, ?_, ?_⟩
  · rcases foldl_max_mem l x with h | h
    · rw [h]; exact List.mem_cons_self _ _
    · exact List.mem_cons_of_mem _ h
  · intro y hy
    rcases List.mem_cons.mp hy with h | h
    · subst h; exact init_le_foldl_max _ _
    · exact le_foldl_max _ _ _ h

/-! ### Bounds -/

lemma rawBounds_spec (X : List Pt) (hX : X ≠ []) :
    ∃ xmin xmax ymin ymax,
      rawBounds X = some (xmin, xmax, ymin, ymax) ∧
      (∀ p ∈ X, xmin ≤ p.1 ∧ p.1 ≤ xmax ∧ ymin ≤ p.2 ∧ p.2 ≤ ymax) ∧
      (∃ p ∈ X, p.1 = xmin) ∧ (∃ p ∈ X, p.1 = xmax) ∧
      (∃ p ∈ X, p.2 = ymin) ∧ (∃ p ∈ X, p.2 = ymax) := by
  match X, hX with
  | p0 :: X', _ =>
    have hfst : (p0 :: X').map Prod.fst = p0.1 :: X'.map Prod.fst := rfl
    have hsnd : (p0 :: X').map Prod.snd = p0.2 :: X'.map Prod.snd := rfl
    obtain ⟨xmin, hxmin, hxminmem, hxminle⟩ := listMin_spec p0.1 (X'.map Prod.fst)
    obtain ⟨xmax, hxmax, hxmaxmem, hxmaxle⟩ := listMax_spec p0.1 (X'.map Prod.fst)
    obtain ⟨ymin, hymin, hyminmem, hyminle⟩ := listMin_spec p0.2 (X'.map Prod.snd)
    obtain ⟨ymax, hymax, hymaxmem, hymaxle⟩ := listMax_spec p0.2 (X'.map Prod.snd)
    have hmemf : ∀ q ∈ p0.1 :: X'.map Prod.fst, ∃ p ∈ p0 :: X', p.1 = q := by
      intro q hq
      rcases List.mem_cons.mp hq with h | h
      · exact ⟨p0, List.mem_cons_self _ _, h.symm⟩
      · obtain ⟨p, hp, hpq⟩ := List.mem_map.mp h
        exact ⟨p, List.mem_cons_of_mem _ hp, hpq⟩
    have hmems : ∀ q ∈ p0.2 :: X'.map Prod.snd, ∃ p ∈ p0 :: X', p.2 = q := by
      intro q hq
      rcases List.mem_cons.mp hq with h | h
      · exact ⟨p0, List.mem_cons_self _ _, h.symm⟩
      · obtain ⟨p, hp, hpq⟩ := List.mem_map.mp h
        exact ⟨p, List.mem_cons_of_mem _ hp, hpq⟩
    refine ⟨xmin, xmax, ymin, ymax, ?_, ?_, hmemf xmin hxminmem,
      hmemf xmax hxmaxmem, hmems ymin hyminmem, hmems ymax hymaxmem⟩
    · simp only [rawBounds, hfst, hsnd, hxmin, hxmax, hymin, hymax]
    · intro p hp
      have h1 : p.1 ∈ p0.1 :: X'.map Prod.fst := by
        rw [← hfst]; exact List.mem_map_of_mem _ hp
      have h2 : p.2 ∈ p0.2 :: X'.map Prod.snd := by
        rw [← hsnd]; exact List.mem_map_of_mem _ hp
      exact ⟨hxminle _ h1, hxmaxle _ h1, hyminle _ h2, hymaxle _ h2⟩

lemma paddedBounds_of_raw (X : List Pt) (xmin xmax ymin ymax : ℚ)
    (h : rawBounds X = some (xmin, xmax, ymin, ymax)) :
    paddedBounds X = some (xmin - (xmax - xmin) * padding,
      xmax + (xmax - xmin) * padding,
      ymin - (ymax - ymin) * padding,
      ymax + (ymax - ymin) * padding) := by
  simp only [paddedBounds, h]

lemma paddedBounds_some (X : List Pt) (hX : X ≠ []) :
    ∃ a b c d, paddedBounds X = some (a, b, c, d) := by
  obtain ⟨xmin, xmax, ymin, ymax, hraw, -⟩ := rawBounds_spec X hX
  exact ⟨_, _, _, _, paddedBounds_of_raw X _ _ _ _ hraw⟩

/-! ### The sample positions of np.arange -/

lemma lt_numSteps_iff (start stop step : ℚ) (hstep : 0 < step) (k : ℕ) :
    k < Int.toNat (Int.ceil ((stop - start) / step)) ↔
      start + (k : ℚ) * step < stop := by
  rw [Int.lt_toNat, Int.lt_ceil, lt_div_iff₀ hstep]
  constructor <;> intro h
  · push_cast at h ⊢
    linarith
  · push_cast
    linarith

lemma arange_length (start stop step : ℚ) :
    (arange start stop step).length =
      Int.toNat (Int.ceil ((stop - start) / step)) := by
  unfold arange
  rw [List.length_map, List.length_range]

lemma arange_getElem? (start stop step : ℚ) (k : ℕ)
    (hk : k < Int.toNat (Int.ceil ((stop - start) / step))) :
    (arange start stop step)[k]? = some (start + (k : ℚ) * step) := by
  unfold arange
  rw [List.getElem?_map, List.getElem?_range hk, Option.map_some']

lemma mem_arange_iff (start stop step : ℚ) (hstep : 0 < step) (q : ℚ) :
    q ∈ arange start stop step ↔
      ∃ k : ℕ, q = start + (k : ℚ) * step ∧ start + (k : ℚ) * step < stop := by
  unfold arange
  rw [List.mem_map]
  constructor
  · rintro ⟨k, hk, rfl⟩
    rw [List.mem_range] at hk
    exact ⟨k, rfl, (lt_numSteps_iff start stop step hstep k).mp hk⟩
  · rintro ⟨k, rfl, hk⟩
    refine ⟨k, ?_, rfl⟩
    rw [List.mem_range]
    exact (lt_numSteps_iff start stop step hstep k).mpr hk

lemma arange_nodup (start stop step : ℚ) (hstep : 0 < step) :
    (arange start stop step).Nodup := by
  unfold arange
  refine List.Nodup.map ?_ (List.nodup_range _)
  intro k k' h
  have h2 : (k : ℚ) * step = (k' : ℚ) * step := by
    have h' : start + (k : ℚ) * step = start + (k' : ℚ) * step := h
    linarith
  have h3 : (k : ℚ) = (k' : ℚ) := mul_right_cancel₀ (ne_of_gt hstep) h2
  exact_mod_cast h3

/-! ### The grid of sample coordinates -/

lemma zip_self_map (xs : List ℚ) (y : ℚ) :
    List.zip xs (xs.map (fun _ => y)) = xs.map (fun x => (x, y)) := by
  have h := List.zip_map' (fun x : ℚ => x) (fun _ : ℚ => y) xs
  simpa using h

lemma gridPoints_nil (xs : List ℚ) : gridPoints xs [] = [] := rfl

lemma gridPoints_cons (xs : List ℚ) (y : ℚ) (ys : List ℚ) :
    gridPoints xs (y :: ys) = xs.map (fun x => (x, y)) ++ gridPoints xs ys := by
  unfold gridPoints meshgrid ravel
  simp only [List.map_cons, List.flatten_cons]
  rw [List.zip_append (by rw [List.length_map]), zip_self_map]

lemma gridPoints_eq_flatMap (xs ys : List ℚ) :
    gridPoints xs ys = ys.flatMap (fun y => xs.map (fun x => (x, y))) := by
  induction ys with
  | nil => rfl
  | cons y ys ih => rw [gridPoints_cons, List.flatMap_cons, ih]

lemma gridPoints_length (xs ys : List ℚ) :
    (gridPoints xs ys).length = ys.length * xs.length := by
  induction ys with
  | nil => simp [gridPoints_nil]
  | cons y ys ih =>
    rw [gridPoints_cons, List.length_append, List.length_map, ih,
      List.length_cons]
    ring

lemma mem_gridPoints (xs ys : List ℚ) (p : Pt) :
    p ∈ gridPoints xs ys ↔ p.1 ∈ xs ∧ p.2 ∈ ys := by
  rw [gridPoints_eq_flatMap]
  constructor
  · intro hp
    obtain ⟨y, hy, hp⟩ := List.mem_flatMap.mp hp
    obtain ⟨x, hx, hxp⟩ := List.mem_map.mp hp
    cases hxp
    exact ⟨hx, hy⟩
  · rintro ⟨h1, h2⟩
    refine List.mem_flatMap.mpr ⟨p.2, h2, ?_⟩
    exact List.mem_map.mpr ⟨p.1, h1, rfl⟩

lemma gridPoints_getElem? (xs ys : List ℚ) (i j : ℕ) (x y : ℚ)
    (hx : xs[j]? = some x) (hy : ys[i]? = some y) :
    (gridPoints xs ys)[i * xs.length + j]? = some (x, y) := by
  induction ys generalizing i with
  | nil => simp at hy
  | cons y0 ys ih =>
    obtain ⟨hj, -⟩ := List.getElem?_eq_some.mp hx
    cases i with
    | zero =>
      rw [List.getElem?_cons_zero, Option.some_inj] at hy
      subst hy
      rw [gridPoints_cons, Nat.zero_mul, Nat.zero_add,
        List.getElem?_append_left (by rw [List.length_map]; exact hj),
        List.getElem?_map, hx, Option.map_some']
    | succ i =>
      rw [List.getElem?_cons_succ] at hy
      rw [gridPoints_cons,
        List.getElem?_append_right
          (by rw [List.length_map, Nat.succ_mul]; omega)]
      have harith : (i + 1) * xs.length + j - (xs.map (fun x => (x, y0))).length
          = i * xs.length + j := by
        rw [List.length_map, Nat.succ_mul]; omega
      rw [harith]
      exact ih i hy

lemma gridPoints_nodup (xs ys : List ℚ) (hxs : xs.Nodup) (hys : ys.Nodup) :
    (gridPoints xs ys).Nodup := by
  rw [gridPoints_eq_flatMap]
  refine List.nodup_flatMap.mpr ⟨?_, ?_⟩
  · intro y _
    exact hxs.map (fun x x' h => congrArg Prod.fst h)
  · refine hys.imp ?_
    intro y y' hyy
    intro p hp hp'
    simp only [Function.onFun, List.mem_map] at hp hp'
    obtain ⟨x, -, rfl⟩ := hp
    obtain ⟨x', -, heq⟩ := hp'
    exact hyy (congrArg Prod.snd heq).symm

/-! ### The classification loop -/

lemma computeZ_total {ε : Type} (f : Pt → Except ε ℚ) (score : Pt → ℚ)
    (pts : List Pt) (hf : ∀ p ∈ pts, f p = Except.ok (score p)) :
    computeZ f pts = (pts.map Effect.classifyCall,
      Except.ok (pts.map (fun p => if 1 / 2 < score p then 1 else 0))) := by
  induction pts with
  | nil => rfl
  | cons p ps ih =>
    have hp := hf p (List.mem_cons_self _ _)
    have hps := ih (fun q hq => hf q (List.mem_cons_of_mem _ hq))
    simp [computeZ, hp, hps]

lemma computeZ_ok {ε : Type} (f : Pt → Except ε ℚ) (pts : List Pt)
    (tr : List Effect) (z : List ℕ) (h : computeZ f pts = (tr, Except.ok z)) :
    tr = pts.map Effect.classifyCall ∧ z.length = pts.length ∧
      ∀ (k : ℕ) (p : Pt), pts[k]? = some p →
        ∃ s, f p = Except.ok s ∧ z[k]? = some (if 1 / 2 < s then 1 else 0) := by
  induction pts generalizing tr z with
  | nil =>
    have h' : (([], Except.ok []) : List Effect × Except ε (List ℕ)) =
      (tr, Except.ok z) := h
    injection h' with h1 h2
    injection h2 with h2
    subst h1
    subst h2
    exact ⟨rfl, rfl, by intro k p hp; simp at hp⟩
  | cons p ps ih =>
    cases hfp : f p with
    | error e => simp [computeZ, hfp] at h
    | ok s =>
      cases hcz : computeZ f ps with
      | mk tr' r =>
        cases r with
        | error e => simp [computeZ, hfp, hcz] at h
        | ok zs =>
          simp only [computeZ, hfp, hcz, Prod.mk.injEq] at h
          obtain ⟨htr, hz⟩ := h
          subst htr
          have hz' : (if 1 / 2 < s then 1 else 0) :: zs = z :=
            Except.ok.inj hz
          subst hz'
          obtain ⟨ih1, ih2, ih3⟩ := ih tr' zs hcz
          refine ⟨by rw [List.map_cons, ih1], by simp [ih2], ?_⟩
          intro k q hq
          cases k with
          | zero =>
            rw [List.getElem?_cons_zero, Option.some_inj] at hq
            subst hq
            exact ⟨s, hfp, List.getElem?_cons_zero⟩
          | succ k =>
            rw [List.getElem?_cons_succ] at hq
            obtain ⟨s', hs', hzk⟩ := ih3 k q hq
            exact ⟨s', hs', by rw [List.getElem?_cons_succ]; exact hzk⟩

lemma computeZ_error {ε : Type} (f : Pt → Except ε ℚ) (l₁ l₂ : List Pt)
    (p : Pt) (e : ε) (hok : ∀ q ∈ l₁, ∃ s, f q = Except.ok s)
    (herr : f p = Except.error e) :
    computeZ f (l₁ ++ p :: l₂) =
      (l₁.map Effect.classifyCall ++ [Effect.classifyCall p],
       Except.error e) := by
  induction l₁ with
  | nil => simp [computeZ, herr]
  | cons q l₁ ih =>
    obtain ⟨s, hs⟩ := hok q (List.mem_cons_self _ _)
    have ih' := ih (fun r hr => hok r (List.mem_cons_of_mem _ hr))
    simp [computeZ, hs, ih']

lemma computeZ_calls {ε : Type} (f : Pt → Except ε ℚ) (pts : List Pt) :
    ∀ eff ∈ (computeZ f pts).1, ∃ p ∈ pts, eff = Effect.classifyCall p := by
  induction pts with
  | nil => intro eff heff; simp [computeZ] at heff
  | cons p ps ih =>
    intro eff heff
    have hshape : (computeZ f (p :: ps)).1 = [Effect.classifyCall p] ∨
        (computeZ f (p :: ps)).1 =
          Effect.classifyCall p :: (computeZ f ps).1 := by
      cases hfp : f p with
      | error e => left; simp [computeZ, hfp]
      | ok s =>
        right
        cases hcz : computeZ f ps with
        | mk tr r =>
          cases r with
          | error e => simp [computeZ, hfp, hcz]
          | ok zs => simp [computeZ, hfp, hcz]
    rcases hshape with h | h
    · rw [h] at heff
      rcases List.mem_singleton.mp heff with rfl
      exact ⟨p, List.mem_cons_self _ _, rfl⟩
    · rw [h] at heff
      rcases List.mem_cons.mp heff with rfl | heff'
      · exact ⟨p, List.mem_cons_self _ _, rfl⟩
      · obtain ⟨q, hq, rfl⟩ := ih _ heff'
        exact ⟨q, List.mem_cons_of_mem _ hq, rfl⟩

/-! ### Reshaping -/

lemma reshape_length {α : Type} (r c : ℕ) (l : List α) :
    (reshape r c l).length = r := by
  induction r generalizing l with
  | zero => rfl
  | succ r ih => rw [reshape, List.length_cons, ih]

lemma reshape_getElem? {α : Type} (r c : ℕ) (l : List α) (i : ℕ) (hi : i < r) :
    (reshape r c l)[i]? = some ((l.drop (i * c)).take c) := by
  induction r generalizing l i with
  | zero => omega
  | succ r ih =>
    cases i with
    | zero => rw [reshape, List.getElem?_cons_zero, Nat.zero_mul, List.drop_zero]
    | succ i =>
      rw [reshape, List.getElem?_cons_succ, ih (l.drop c) i (by omega),
        List.drop_drop]
      have : c + i * c = (i + 1) * c := by ring
      rw [this]

lemma reshape_map_length {α : Type} (r c : ℕ) (l : List α)
    (h : l.length = r * c) :
    (reshape r c l).map List.length = List.replicate r c := by
  induction r generalizing l with
  | zero => rfl
  | succ r ih =>
    rw [reshape, List.map_cons, List.replicate_succ, List.length_take]
    have hlen : l.length = r * c + c := by rw [h]; ring
    have h1 : min c l.length = c := by omega
    rw [h1, ih (l.drop c) (by rw [List.length_drop, hlen]; omega)]

/-! ### Unfolding the whole pipeline -/

lemma res_pos : 0 < res := by norm_num [res]

lemma plot_total_spec (ε : Type) (score : Pt → ℚ) (X : List Pt) (Y : List ℚ)
    (a b c d : ℚ) (hpb : paddedBounds X = some (a, b, c, d)) :
    plot_decision_boundary (fun p => (Except.ok (score p) : Except ε ℚ)) X Y =
      ((gridPoints (arange a b res) (arange c d res)).map Effect.classifyCall ++
        [Effect.figureCreate (8, 6), Effect.contourDraw, Effect.scatterDraw],
       Except.ok
         ⟨(meshgrid (arange a b res) (arange c d res)).1,
          (meshgrid (arange a b res) (arange c d res)).2,
          reshape (arange c d res).length (arange a b res).length
            ((gridPoints (arange a b res) (arange c d res)).map
              (fun p => if 1 / 2 < score p then 1 else 0)),
          (8, 6),
          ((meshgrid (arange a b res) (arange c d res)).1,
           (meshgrid (arange a b res) (arange c d res)).2,
           reshape (arange c d res).length (arange a b res).length
             ((gridPoints (arange a b res) (arange c d res)).map
               (fun p => if 1 / 2 < score p then 1 else 0)),
           Colormap.spectral),
          X.map Prod.fst, X.map Prod.snd, 35, Y, Colormap.spectral⟩) := by
  have hcz := computeZ_total (fun p => (Except.ok (score p) : Except ε ℚ))
    score (gridPoints (arange a b res) (arange c d res)) (fun p _ => rfl)
  simp only [plot_decision_boundary, hpb, hcz]

lemma plot_error_spec (ε : Type) (f : Pt → Except ε ℚ) (X : List Pt)
    (Y : List ℚ) (a b c d : ℚ) (e : ε) (l₁ l₂ : List Pt) (p : Pt)
    (hpb : paddedBounds X = some (a, b, c, d))
    (hsplit : gridPoints (arange a b res) (arange c d res) = l₁ ++ p :: l₂)
    (hok : ∀ q ∈ l₁, ∃ s, f q = Except.ok s)
    (herr : f p = Except.error e) :
    plot_decision_boundary f X Y =
      (l₁.map Effect.classifyCall ++ [Effect.classifyCall p],
       Except.error (RenderError.classifyError e)) := by
  have hcz := computeZ_error f l₁ l₂ p e hok herr
  simp only [plot_decision_boundary, hpb, hsplit, hcz]

lemma plot_calls_sub (ε : Type) (f : Pt → Except ε ℚ) (X : List Pt)
    (Y : List ℚ) (a b c d : ℚ) (hpb : paddedBounds X = some (a, b, c, d)) :
    ∀ p : Pt, Effect.classifyCall p ∈ (plot_decision_boundary f X Y).1 →
      p ∈ gridPoints (arange a b res) (arange c d res) := by
  intro p hp
  have hcalls := computeZ_calls f (gridPoints (arange a b res) (arange c d res))
  cases hcz : computeZ f (gridPoints (arange a b res) (arange c d res)) with
  | mk tr r =>
    rw [hcz] at hcalls
    cases r with
    | error e =>
      have htrace : (plot_decision_boundary f X Y).1 = tr := by
        simp only [plot_decision_boundary, hpb, hcz]
      rw [htrace] at hp
      obtain ⟨q, hq, heq⟩ := hcalls _ hp
      cases Effect.classifyCall.inj heq
      exact hq
    | ok zs =>
      have htrace : (plot_decision_boundary f X Y).1 =
          tr ++ [Effect.figureCreate (8, 6), Effect.contourDraw,
                 Effect.scatterDraw] := by
        simp only [plot_decision_boundary, hpb, hcz]
      rw [htrace] at hp
      rcases List.mem_append.mp hp with h | h
      · obtain ⟨q, hq, heq⟩ := hcalls _ h
        cases Effect.classifyCall.inj heq
        exact hq
      · simp at h

/-! ### The claims -/

/-- Claim C2: for every non-empty dataset, plot_decision_boundary (through
rawBounds and paddedBounds, which it matches on) computes the padded bounds
as raw minimum minus 0.15 times the axis range and raw maximum plus 0.15
times the axis range, per axis; the padded box strictly contains the raw
box on an axis of positive range and coincides with it on an axis of zero
range. -/
theorem paddedBounds_formula_and_containment (X : List Pt) (hX : X ≠ []) :
    ∃ xmin xmax ymin ymax,
      rawBounds X = some (xmin, xmax, ymin, ymax) ∧
      (∀ p ∈ X, xmin ≤ p.1 ∧ p.1 ≤ xmax ∧ ymin ≤ p.2 ∧ p.2 ≤ ymax) ∧
      (∃ p ∈ X, p.1 = xmin) ∧ (∃ p ∈ X, p.1 = xmax) ∧
      (∃ p ∈ X, p.2 = ymin) ∧ (∃ p ∈ X, p.2 = ymax) ∧
      paddedBounds X = some (xmin - (xmax - xmin) * padding,
        xmax + (xmax - xmin) * padding, ymin - (ymax - ymin) * padding,
        ymax + (ymax - ymin) * padding) ∧
      (0 < xmax - xmin → xmin - (xmax - xmin) * padding < xmin ∧
        xmax < xmax + (xmax - xmin) * padding) ∧
      (xmax - xmin = 0 → xmin - (xmax - xmin) * padding = xmin ∧
        xmax + (xmax - xmin) * padding = xmax) ∧
      (0 < ymax - ymin → ymin - (ymax - ymin) * padding < ymin ∧
        ymax < ymax + (ymax - ymin) * padding) ∧
      (ymax - ymin = 0 → ymin - (ymax - ymin) * padding = ymin ∧
        ymax + (ymax - ymin) * padding = ymax) := by
  obtain ⟨xmin, xmax, ymin, ymax, hraw, hb, he1, he2, he3, he4⟩ :=
    rawBounds_spec X hX
  refine ⟨xmin, xmax, ymin, ymax, hraw, hb, he1, he2, he3, he4,
    paddedBounds_of_raw X _ _ _ _ hraw, ?_, ?_, ?_, ?_⟩
  · intro h
    unfold padding
    constructor <;> nlinarith
  · intro h
    rw [h, zero_mul]
    exact ⟨sub_zero _, add_zero _⟩
  · intro h
    unfold padding
    constructor <;> nlinarith
  · intro h
    rw [h, zero_mul]
    exact ⟨sub_zero _, add_zero _⟩

/-- Witness for claim C2 at the concrete dataset [(0, 0), (1, 2)]. -/
theorem paddedBounds_formula_and_containment_witness :
    ∃ xmin xmax ymin ymax,
      rawBounds [((0 : ℚ), (0 : ℚ)), (1, 2)] = some (xmin, xmax, ymin, ymax) ∧
      (∀ p ∈ [((0 : ℚ), (0 : ℚ)), (1, 2)],
        xmin ≤ p.1 ∧ p.1 ≤ xmax ∧ ymin ≤ p.2 ∧ p.2 ≤ ymax) ∧
      (∃ p ∈ [((0 : ℚ), (0 : ℚ)), (1, 2)], p.1 = xmin) ∧
      (∃ p ∈ [((0 : ℚ), (0 : ℚ)), (1, 2)], p.1 = xmax) ∧
      (∃ p ∈ [((0 : ℚ), (0 : ℚ)), (1, 2)], p.2 = ymin) ∧
      (∃ p ∈ [((0 : ℚ), (0 : ℚ)), (1, 2)], p.2 = ymax) ∧
      paddedBounds [((0 : ℚ), (0 : ℚ)), (1, 2)] =
        some (xmin - (xmax - xmin) * padding, xmax + (xmax - xmin) * padding,
          ymin - (ymax - ymin) * padding, ymax + (ymax - ymin) * padding) ∧
      (0 < xmax - xmin → xmin - (xmax - xmin) * padding < xmin ∧
        xmax < xmax + (xmax - xmin) * padding) ∧
      (xmax - xmin = 0 → xmin - (xmax - xmin) * padding = xmin ∧
        xmax + (xmax - xmin) * padding = xmax) ∧
      (0 < ymax - ymin → ymin - (ymax - ymin) * padding < ymin ∧
        ymax < ymax + (ymax - ymin) * padding) ∧
      (ymax - ymin = 0 → ymin - (ymax - ymin) * padding = ymin ∧
        ymax + (ymax - ymin) * padding = ymax) :=
  paddedBounds_formula_and_containment [((0 : ℚ), (0 : ℚ)), (1, 2)]
    (List.cons_ne_nil _ _)

/-- Claim C5: on an empty points sequence, plot_decision_boundary fails
with the empty-input error eagerly: no classifier call and no drawing
effect is in the trace, and the error is raised before any grid work. -/
theorem empty_points_fail_fast (ε : Type) (f : Pt → Except ε ℚ)
    (Y : List ℚ) :
    plot_decision_boundary f [] Y =
      ([], Except.error RenderError.emptyInput) := rfl

/-- Claim C9: the computed coordinate grids and label grid do not depend
on the labels sequence Y; two calls with the same classifier and points
but different labels produce the same effect trace and the same data
except for the scatter colours, and Y only ever reaches the scatter
colour argument. -/
theorem Z_independent_of_labels (ε : Type) (f : Pt → Except ε ℚ)
    (X : List Pt) (Y₁ Y₂ : List ℚ) :
    (plot_decision_boundary f X Y₁).1 = (plot_decision_boundary f X Y₂).1 ∧
    Except.map
        (fun o => (o.xx, o.yy, o.Z, o.figsize, o.contour, o.scatter_x,
          o.scatter_y, o.scatter_s, o.scatter_cmap))
        (plot_decision_boundary f X Y₁).2 =
      Except.map
        (fun o => (o.xx, o.yy, o.Z, o.figsize, o.contour, o.scatter_x,
          o.scatter_y, o.scatter_s, o.scatter_cmap))
        (plot_decision_boundary f X Y₂).2 ∧
    ∀ o : RenderOutput, (plot_decision_boundary f X Y₁).2 = Except.ok o →
      o.scatter_c = Y₁ := by
  cases hpb : paddedBounds X with
  | none => simp [plot_decision_boundary, hpb]
  | some q =>
    obtain ⟨a, b, c, d⟩ := q
    cases hcz : computeZ f (gridPoints (arange a b res) (arange c d res)) with
    | mk tr r =>
      cases r with
      | error e => simp [plot_decision_boundary, hpb, hcz]
      | ok zs =>
        refine ⟨?_, ?_, ?_⟩
        · simp only [plot_decision_boundary, hpb, hcz]
        · simp only [plot_decision_boundary, hpb, hcz, Except.map]
        · intro o ho
          simp only [plot_decision_boundary, hpb, hcz] at ho
          cases Except.ok.inj ho
          rfl

/-- Witness for claim C5 at a concrete classifier and labels. -/
theorem empty_points_fail_fast_witness :
    plot_decision_boundary (fun p => (Except.ok p.1 : Except Unit ℚ)) []
      [1, 2] = ([], Except.error RenderError.emptyInput) :=
  empty_points_fail_fast Unit (fun p => Except.ok p.1) [1, 2]

/-- Witness for claim C9 at a concrete classifier, dataset and two
different label sequences. -/
theorem Z_independent_of_labels_witness :
    (plot_decision_boundary (fun p => (Except.ok p.1 : Except Unit ℚ))
        [((0 : ℚ), (0 : ℚ))] [0]).1 =
      (plot_decision_boundary (fun p => (Except.ok p.1 : Except Unit ℚ))
        [((0 : ℚ), (0 : ℚ))] [5]).1 ∧
    Except.map
        (fun o => (o.xx, o.yy, o.Z, o.figsize, o.contour, o.scatter_x,
          o.scatter_y, o.scatter_s, o.scatter_cmap))
        (plot_decision_boundary (fun p => (Except.ok p.1 : Except Unit ℚ))
          [((0 : ℚ), (0 : ℚ))] [0]).2 =
      Except.map
        (fun o => (o.xx, o.yy, o.Z, o.figsize, o.contour, o.scatter_x,
          o.scatter_y, o.scatter_s, o.scatter_cmap))
        (plot_decision_boundary (fun p => (Except.ok p.1 : Except Unit ℚ))
          [((0 : ℚ), (0 : ℚ))] [5]).2 ∧
    ∀ o : RenderOutput,
      (plot_decision_boundary (fun p => (Except.ok p.1 : Except Unit ℚ))
        [((0 : ℚ), (0 : ℚ))] [0]).2 = Except.ok o →
      o.scatter_c = [0] :=
  Z_independent_of_labels Unit (fun p => Except.ok p.1)
    [((0 : ℚ), (0 : ℚ))] [0] [5]

/-- Claim C4: with a total classifier and a non-empty dataset, the trace
of classifier invocations is exactly the grid points, each exactly once
(the grid list has no duplicates), in row-major order with the y values
outer and the x values inner, followed by the drawing effects. -/
theorem classify_called_once_per_grid_point_in_order (ε : Type)
    (score : Pt → ℚ) (X : List Pt) (Y : List ℚ) (hX : X ≠ []) :
    ∃ a b c d,
      paddedBounds X = some (a, b, c, d) ∧
      (plot_decision_boundary
          (fun p => (Except.ok (score p) : Except ε ℚ)) X Y).1 =
        (gridPoints (arange a b res) (arange c d res)).map
            Effect.classifyCall ++
          [Effect.figureCreate (8, 6), Effect.contourDraw,
           Effect.scatterDraw] ∧
      gridPoints (arange a b res) (arange c d res) =
        (arange c d res).flatMap
          (fun y => (arange a b res).map (fun x => (x, y))) ∧
      (gridPoints (arange a b res) (arange c d res)).Nodup := by
  obtain ⟨a, b, c, d, hpb⟩ := paddedBounds_some X hX
  refine ⟨a, b, c, d, hpb, ?_, gridPoints_eq_flatMap _ _,
    gridPoints_nodup _ _ (arange_nodup _ _ _ res_pos)
      (arange_nodup _ _ _ res_pos)⟩
  rw [plot_total_spec ε score X Y a b c d hpb]

/-- Witness for claim C4 at a concrete classifier and dataset. -/
theorem classify_called_once_per_grid_point_in_order_witness :
    ∃ a b c d,
      paddedBounds [((0 : ℚ), (0 : ℚ)), (1, 2)] = some (a, b, c, d) ∧
      (plot_decision_boundary
          (fun p => (Except.ok p.1 : Except Unit ℚ))
          [((0 : ℚ), (0 : ℚ)), (1, 2)] [0, 1]).1 =
        (gridPoints (arange a b res) (arange c d res)).map
            Effect.classifyCall ++
          [Effect.figureCreate (8, 6), Effect.contourDraw,
           Effect.scatterDraw] ∧
      gridPoints (arange a b res) (arange c d res) =
        (arange c d res).flatMap
          (fun y => (arange a b res).map (fun x => (x, y))) ∧
      (gridPoints (arange a b res) (arange c d res)).Nodup :=
  classify_called_once_per_grid_point_in_order Unit (fun p => p.1)
    [((0 : ℚ), (0 : ℚ)), (1, 2)] [0, 1] (List.cons_ne_nil _ _)

lemma getElem?_some_of_lt {α : Type} (l : List α) (n : ℕ) (h : n < l.length) :
    ∃ a, l[n]? = some a :=
  ⟨l[n], List.getElem?_eq_getElem h⟩

/-- Claim C1: every entry of the label grid Z is 0 or 1, and it is 1
exactly when the classifier score at that grid coordinate is strictly
greater than 0.5; a score of exactly 0.5 yields 0. -/
theorem Z_entries_binary_iff_threshold (ε : Type) (score : Pt → ℚ)
    (X : List Pt) (Y : List ℚ) (hX : X ≠ []) :
    ∃ a b c d tr o,
      paddedBounds X = some (a, b, c, d) ∧
      plot_decision_boundary (fun p => (Except.ok (score p) : Except ε ℚ))
        X Y = (tr, Except.ok o) ∧
      ∀ (i j : ℕ) (row : List ℕ) (z : ℕ),
        o.Z[i]? = some row → row[j]? = some z →
        ∃ x y : ℚ,
          (arange a b res)[j]? = some x ∧ (arange c d res)[i]? = some y ∧
          (z = 0 ∨ z = 1) ∧ (z = 1 ↔ 1 / 2 < score (x, y)) ∧
          (score (x, y) = 1 / 2 → z = 0) := by
  obtain ⟨a, b, c, d, hpb⟩ := paddedBounds_some X hX
  refine ⟨a, b, c, d, _, _, hpb, plot_total_spec ε score X Y a b c d hpb, ?_⟩
  intro i j row z hrow hz
  have hrow' : (reshape (arange c d res).length (arange a b res).length
      ((gridPoints (arange a b res) (arange c d res)).map
        (fun p => if 1 / 2 < score p then 1 else 0)))[i]? = some row := hrow
  have hi : i < (arange c d res).length := by
    by_contra hi
    rw [not_lt] at hi
    rw [List.getElem?_eq_none (by rw [reshape_length]; exact hi)] at hrow'
    cases hrow'
  rw [reshape_getElem? _ _ _ i hi, Option.some_inj] at hrow'
  subst hrow'
  obtain ⟨hj, -⟩ := List.getElem?_eq_some.mp hz
  rw [List.length_take] at hj
  have hjx : j < (arange a b res).length := lt_of_lt_of_le hj (min_le_left _ _)
  rw [List.getElem?_take_of_lt (lt_of_lt_of_le hj (min_le_left _ _)),
    List.getElem?_drop] at hz
  obtain ⟨x, hx⟩ := getElem?_some_of_lt _ _ hjx
  obtain ⟨y, hy⟩ := getElem?_some_of_lt _ _ hi
  have hgrid := gridPoints_getElem? (arange a b res) (arange c d res) i j x y
    hx hy
  rw [List.getElem?_map, hgrid, Option.map_some'] at hz
  have hzval : z = if 1 / 2 < score (x, y) then 1 else 0 :=
    (Option.some_inj.mp hz).symm
  subst hzval
  refine ⟨x, y, hx, hy, ?_, ?_, ?_⟩
  · by_cases hlt : 1 / 2 < score (x, y)
    · right; rw [if_pos hlt]
    · left; rw [if_neg hlt]
  · by_cases hlt : 1 / 2 < score (x, y)
    · simp [hlt]
    · simp [hlt]
  · intro heq
    rw [heq]
    simp

/-- Witness for claim C1 at a concrete classifier and dataset. -/
theorem Z_entries_binary_iff_threshold_witness :
    ∃ a b c d tr o,
      paddedBounds [((0 : ℚ), (0 : ℚ)), (1, 2)] = some (a, b, c, d) ∧
      plot_decision_boundary (fun p => (Except.ok p.1 : Except Unit ℚ))
        [((0 : ℚ), (0 : ℚ)), (1, 2)] [0, 1] = (tr, Except.ok o) ∧
      ∀ (i j : ℕ) (row : List ℕ) (z : ℕ),
        o.Z[i]? = some row → row[j]? = some z →
        ∃ x y : ℚ,
          (arange a b res)[j]? = some x ∧ (arange c d res)[i]? = some y ∧
          (z = 0 ∨ z = 1) ∧ (z = 1 ↔ 1 / 2 < (x, y).1) ∧
          ((x, y).1 = 1 / 2 → z = 0) :=
  Z_entries_binary_iff_threshold Unit (fun p => p.1)
    [((0 : ℚ), (0 : ℚ)), (1, 2)] [0, 1] (List.cons_ne_nil _ _)

/-- Claim C3: for a non-empty dataset the grid of sample coordinates
covers the padded box with fixed step res = 0.01 on both axes — a value
is a sample position on an axis exactly when it is the padded lower bound
plus a natural multiple of 0.01 that stays below the padded upper bound,
and the k-th sample position is the k-th such multiple — and the
flattened coordinate pairs come in row-major order with the y values
outer and the x values inner. -/
theorem grid_covers_padded_box_row_major (ε : Type) (score : Pt → ℚ)
    (X : List Pt) (Y : List ℚ) (hX : X ≠ []) :
    ∃ a b c d tr o,
      paddedBounds X = some (a, b, c, d) ∧
      plot_decision_boundary (fun p => (Except.ok (score p) : Except ε ℚ))
        X Y = (tr, Except.ok o) ∧
      List.zip (ravel o.xx) (ravel o.yy) =
        (arange c d res).flatMap
          (fun y => (arange a b res).map (fun x => (x, y))) ∧
      (∀ q : ℚ, q ∈ arange a b res ↔
        ∃ k : ℕ, q = a + (k : ℚ) * res ∧ a + (k : ℚ) * res < b) ∧
      (∀ q : ℚ, q ∈ arange c d res ↔
        ∃ k : ℕ, q = c + (k : ℚ) * res ∧ c + (k : ℚ) * res < d) ∧
      (∀ k : ℕ, a + (k : ℚ) * res < b →
        (arange a b res)[k]? = some (a + (k : ℚ) * res)) ∧
      (∀ k : ℕ, c + (k : ℚ) * res < d →
        (arange c d res)[k]? = some (c + (k : ℚ) * res)) := by
  obtain ⟨a, b, c, d, hpb⟩ := paddedBounds_some X hX
  refine ⟨a, b, c, d, _, _, hpb, plot_total_spec ε score X Y a b c d hpb,
    ?_, fun q => mem_arange_iff a b res res_pos q,
    fun q => mem_arange_iff c d res res_pos q, ?_, ?_⟩
  · exact gridPoints_eq_flatMap (arange a b res) (arange c d res)
  · intro k hk
    exact arange_getElem? a b res k
      ((lt_numSteps_iff a b res res_pos k).mpr hk)
  · intro k hk
    exact arange_getElem? c d res k
      ((lt_numSteps_iff c d res res_pos k).mpr hk)

/-- Witness for claim C3 at a concrete classifier and dataset. -/
theorem grid_covers_padded_box_row_major_witness :
    ∃ a b c d tr o,
      paddedBounds [((0 : ℚ), (0 : ℚ)), (1, 2)] = some (a, b, c, d) ∧
      plot_decision_boundary (fun p => (Except.ok p.2 : Except Unit ℚ))
        [((0 : ℚ), (0 : ℚ)), (1, 2)] [0, 1] = (tr, Except.ok o) ∧
      List.zip (ravel o.xx) (ravel o.yy) =
        (arange c d res).flatMap
          (fun y => (arange a b res).map (fun x => (x, y))) ∧
      (∀ q : ℚ, q ∈ arange a b res ↔
        ∃ k : ℕ, q = a + (k : ℚ) * res ∧ a + (k : ℚ) * res < b) ∧
      (∀ q : ℚ, q ∈ arange c d res ↔
        ∃ k : ℕ, q = c + (k : ℚ) * res ∧ c + (k : ℚ) * res < d) ∧
      (∀ k : ℕ, a + (k : ℚ) * res < b →
        (arange a b res)[k]? = some (a + (k : ℚ) * res)) ∧
      (∀ k : ℕ, c + (k : ℚ) * res < d →
        (arange c d res)[k]? = some (c + (k : ℚ) * res)) :=
  grid_covers_padded_box_row_major Unit (fun p => p.2)
    [((0 : ℚ), (0 : ℚ)), (1, 2)] [0, 1] (List.cons_ne_nil _ _)

/-- Claim C8: on every valid input the 2D shape of the label grid Z
equals the shape of the coordinate grid: same number of rows and the same
length row by row. -/
theorem Z_shape_matches_grid_shape (ε : Type) (score : Pt → ℚ)
    (X : List Pt) (Y : List ℚ) (hX : X ≠ []) :
    ∃ tr o,
      plot_decision_boundary (fun p => (Except.ok (score p) : Except ε ℚ))
        X Y = (tr, Except.ok o) ∧
      o.Z.length = o.xx.length ∧
      o.Z.map List.length = o.xx.map List.length := by
  obtain ⟨a, b, c, d, hpb⟩ := paddedBounds_some X hX
  refine ⟨_, _, plot_total_spec ε score X Y a b c d hpb, ?_, ?_⟩
  · show (reshape (arange c d res).length (arange a b res).length
        ((gridPoints (arange a b res) (arange c d res)).map
          (fun p => if 1 / 2 < score p then 1 else 0))).length =
      ((meshgrid (arange a b res) (arange c d res)).1).length
    rw [reshape_length]
    unfold meshgrid
    rw [List.length_map]
  · show (reshape (arange c d res).length (arange a b res).length
        ((gridPoints (arange a b res) (arange c d res)).map
          (fun p => if 1 / 2 < score p then 1 else 0))).map List.length =
      ((meshgrid (arange a b res) (arange c d res)).1).map List.length
    rw [reshape_map_length _ _ _
      (by rw [List.length_map, gridPoints_length])]
    unfold meshgrid
    rw [List.map_map]
    show _ = (arange c d res).map (fun _ => (arange a b res).length)
    rw [List.map_const']

/-- Witness for claim C8 at a concrete classifier and dataset. -/
theorem Z_shape_matches_grid_shape_witness :
    ∃ tr o,
      plot_decision_boundary (fun p => (Except.ok p.1 : Except Unit ℚ))
        [((0 : ℚ), (0 : ℚ)), (2, 1)] [1, 0] = (tr, Except.ok o) ∧
      o.Z.length = o.xx.length ∧
      o.Z.map List.length = o.xx.map List.length :=
  Z_shape_matches_grid_shape Unit (fun p => p.1)
    [((0 : ℚ), (0 : ℚ)), (2, 1)] [1, 0] (List.cons_ne_nil _ _)

/-- Claim C10: the classifier is never invoked outside the padded box:
every argument passed to it has first component of the form padded x
lower bound plus a natural multiple of 0.01 and strictly below the padded
x upper bound, and likewise for the second component with the y bounds,
so the padded upper bounds themselves are never sampled. -/
theorem classify_calls_within_padded_box (ε : Type) (f : Pt → Except ε ℚ)
    (X : List Pt) (Y : List ℚ) (hX : X ≠ []) :
    ∃ a b c d,
      paddedBounds X = some (a, b, c, d) ∧
      ∀ p : Pt, Effect.classifyCall p ∈ (plot_decision_boundary f X Y).1 →
        (∃ k : ℕ, p.1 = a + (k : ℚ) * res ∧ p.1 < b) ∧
        (∃ k : ℕ, p.2 = c + (k : ℚ) * res ∧ p.2 < d) := by
  obtain ⟨a, b, c, d, hpb⟩ := paddedBounds_some X hX
  refine ⟨a, b, c, d, hpb, ?_⟩
  intro p hp
  have hmem := plot_calls_sub ε f X Y a b c d hpb p hp
  rw [mem_gridPoints] at hmem
  obtain ⟨h1, h2⟩ := hmem
  obtain ⟨k1, hk1, hk1'⟩ := (mem_arange_iff a b res res_pos p.1).mp h1
  obtain ⟨k2, hk2, hk2'⟩ := (mem_arange_iff c d res res_pos p.2).mp h2
  exact ⟨⟨k1, hk1, by rw [hk1]; exact hk1'⟩,
    ⟨k2, hk2, by rw [hk2]; exact hk2'⟩⟩

/-- Witness for claim C10 at a concrete classifier and dataset. -/
theorem classify_calls_within_padded_box_witness :
    ∃ a b c d,
      paddedBounds [((0 : ℚ), (0 : ℚ)), (1, 2)] = some (a, b, c, d) ∧
      ∀ p : Pt, Effect.classifyCall p ∈
          (plot_decision_boundary (fun _ => (Except.error () : Except Unit ℚ))
            [((0 : ℚ), (0 : ℚ)), (1, 2)] [0, 1]).1 →
        (∃ k : ℕ, p.1 = a + (k : ℚ) * res ∧ p.1 < b) ∧
        (∃ k : ℕ, p.2 = c + (k : ℚ) * res ∧ p.2 < d) :=
  classify_calls_within_padded_box Unit
    (fun _ => (Except.error () : Except Unit ℚ))
    [((0 : ℚ), (0 : ℚ)), (1, 2)] [0, 1] (List.cons_ne_nil _ _)

lemma arange_head (start stop step : ℚ) (h : start < stop)
    (hstep : 0 < step) :
    ∃ t, arange start stop step = start :: t := by
  have h0 : 0 < Int.toNat (Int.ceil ((stop - start) / step)) :=
    (lt_numSteps_iff start stop step hstep 0).mpr (by simpa using h)
  obtain ⟨m, hm⟩ := Nat.exists_eq_succ_of_ne_zero (Nat.pos_iff_ne_zero.mp h0)
  refine ⟨(List.range m).map (fun k : ℕ => start + ((k : ℚ) + 1) * step), ?_⟩
  unfold arange
  rw [hm, List.range_succ_eq_map, List.map_cons]
  congr 1
  · push_cast
    ring
  · rw [List.map_map]
    congr 1
    funext k
    show start + ((k + 1 : ℕ) : ℚ) * step = _
    push_cast
    ring

lemma gridPoints_head (x y : ℚ) (xs' ys' : List ℚ) :
    ∃ t, gridPoints (x :: xs') (y :: ys') = (x, y) :: t := by
  rw [gridPoints_cons, List.map_cons, List.cons_append]
  exact ⟨_, rfl⟩

/-- Claim C7: if the classifier raises an error at a grid coordinate (all
earlier grid points in row-major order succeeding), the error propagates
out unmodified wrapped only in the renderer's error sum, each earlier
point was tried exactly once with no retry, and no figure, contour or
scatter effect is performed, so no completed figure is produced. -/
theorem classify_error_propagates_without_figure (ε : Type)
    (f : Pt → Except ε ℚ) (X : List Pt) (Y : List ℚ) (a b c d : ℚ) (e : ε)
    (l₁ l₂ : List Pt) (p : Pt)
    (hpb : paddedBounds X = some (a, b, c, d))
    (hsplit : gridPoints (arange a b res) (arange c d res) = l₁ ++ p :: l₂)
    (hok : ∀ q ∈ l₁, ∃ s, f q = Except.ok s)
    (herr : f p = Except.error e) :
    plot_decision_boundary f X Y =
      (l₁.map Effect.classifyCall ++ [Effect.classifyCall p],
       Except.error (RenderError.classifyError e)) ∧
    ∀ eff ∈ (plot_decision_boundary f X Y).1,
      ∃ q : Pt, eff = Effect.classifyCall q := by
  have h := plot_error_spec ε f X Y a b c d e l₁ l₂ p hpb hsplit hok herr
  refine ⟨h, ?_⟩
  intro eff heff
  rw [h] at heff
  rcases List.mem_append.mp heff with h1 | h1
  · obtain ⟨q, -, rfl⟩ := List.mem_map.mp h1
    exact ⟨q, rfl⟩
  · rw [List.mem_singleton.mp h1]
    exact ⟨p, rfl⟩

lemma witness7_pb :
    paddedBounds [((0 : ℚ), (0 : ℚ)), (1 / 100, 1 / 100)] =
      some (-3 / 2000, 23 / 2000, -3 / 2000, 23 / 2000) := by
  norm_num [paddedBounds, rawBounds, listMin, listMax, padding]

lemma witness7_split :
    ∃ t, gridPoints (arange (-3 / 2000) (23 / 2000) res)
        (arange (-3 / 2000) (23 / 2000) res) =
      ((-3 / 2000 : ℚ), (-3 / 2000 : ℚ)) :: t := by
  obtain ⟨t1, h1⟩ := arange_head (-3 / 2000) (23 / 2000) res (by norm_num)
    res_pos
  rw [h1]
  exact gridPoints_head _ _ _ _

/-- Witness for claim C7: an always-failing classifier on a dataset whose
grid is non-empty. -/
theorem classify_error_propagates_without_figure_witness :
    plot_decision_boundary (fun _ => (Except.error () : Except Unit ℚ))
        [((0 : ℚ), (0 : ℚ)), (1 / 100, 1 / 100)] [0, 1] =
      (([] : List Pt).map Effect.classifyCall ++
        [Effect.classifyCall ((-3 / 2000 : ℚ), (-3 / 2000 : ℚ))],
       Except.error (RenderError.classifyError ())) ∧
    ∀ eff ∈ (plot_decision_boundary
        (fun _ => (Except.error () : Except Unit ℚ))
        [((0 : ℚ), (0 : ℚ)), (1 / 100, 1 / 100)] [0, 1]).1,
      ∃ q : Pt, eff = Effect.classifyCall q := by
  obtain ⟨t, ht⟩ := witness7_split
  exact classify_error_propagates_without_figure Unit
    (fun _ => (Except.error () : Except Unit ℚ))
    [((0 : ℚ), (0 : ℚ)), (1 / 100, 1 / 100)] [0, 1]
    (-3 / 2000) (23 / 2000) (-3 / 2000) (23 / 2000) () [] t
    ((-3 / 2000 : ℚ), (-3 / 2000 : ℚ)) witness7_pb ht (by simp) rfl

/-- Claim C6 is refuted by this counterexample: with one point and an
empty labels sequence (mismatched lengths 1 and 0) the call completes
without any error, handing the mismatched labels to the scatter draw. -/
theorem length_mismatch_not_checked_cex :
    (plot_decision_boundary (fun p => (Except.ok p.1 : Except Unit ℚ))
        [((0 : ℚ), (0 : ℚ))] []).2 =
      Except.ok ⟨[], [], [], (8, 6), ([], [], [], Colormap.spectral),
        [0], [0], 35, [], Colormap.spectral⟩ := by
  have hpb : paddedBounds [((0 : ℚ), (0 : ℚ))] = some (0, 0, 0, 0) := by
    norm_num [paddedBounds, rawBounds, listMin, listMax, padding]
  have hxs : arange 0 0 res = [] := by
    unfold arange
    norm_num
  simp only [plot_decision_boundary, hpb, hxs]
  rfl

/-- Claim C6 (amended): plot_decision_boundary performs no length check;
whatever the length of Y, the call completes on a non-empty dataset and
the labels are passed unchanged, together with the point coordinates, to
the scatter draw call, where any mismatch would surface in the external
backend. -/
theorem labels_passed_unchecked_to_scatter (ε : Type) (score : Pt → ℚ)
    (X : List Pt) (Y : List ℚ) (hX : X ≠ []) :
    ∃ tr o,
      plot_decision_boundary (fun p => (Except.ok (score p) : Except ε ℚ))
        X Y = (tr, Except.ok o) ∧
      o.scatter_x = X.map Prod.fst ∧ o.scatter_y = X.map Prod.snd ∧
      o.scatter_c = Y ∧ Effect.scatterDraw ∈ tr := by
  obtain ⟨a, b, c, d, hpb⟩ := paddedBounds_some X hX
  refine ⟨_, _, plot_total_spec ε score X Y a b c d hpb, rfl, rfl, rfl, ?_⟩
  simp

/-- Witness for claim C6 (amended), at mismatched lengths 1 and 0. -/
theorem labels_passed_unchecked_to_scatter_witness :
    ∃ tr o,
      plot_decision_boundary (fun p => (Except.ok p.1 : Except Unit ℚ))
        [((0 : ℚ), (0 : ℚ))] [] = (tr, Except.ok o) ∧
      o.scatter_x = [((0 : ℚ), (0 : ℚ))].map Prod.fst ∧
      o.scatter_y = [((0 : ℚ), (0 : ℚ))].map Prod.snd ∧
      o.scatter_c = [] ∧ Effect.scatterDraw ∈ tr :=
  labels_passed_unchecked_to_scatter Unit (fun p => p.1)
    [((0 : ℚ), (0 : ℚ))] [] (List.cons_ne_nil _ _)

end BoundarySimple
